import Mathlib

/-!
Verification development for the BCP47 language-subtag library
(`src/language/languages.cpp`, `include/language/languages.h`).

Strings are modelled as `List Char` (QString), maps as association lists
with QMap value/contains semantics, and shared pointers as `Option`:
a `none` where the C++ code would dereference a null `QSharedPointer`
(or call `QVector::at` out of range) is propagated as an overall `none`
result, standing for the crash / undefined behaviour.
-/

namespace LangSpec

/-! ## QString / QChar utilities -/

/-- QChar::isSpace, as used by QString::trimmed and whitespace stripping. -/
def qIsSpace (c : Char) : Bool := c.isWhitespace

/-- QString::toLower (ASCII-adequate model). -/
def lowerStr (s : List Char) : List Char := s.map Char.toLower

/-- QString::trimmed: strip leading and trailing whitespace. -/
def qTrim (s : List Char) : List Char :=
  ((s.dropWhile qIsSpace).reverse.dropWhile qIsSpace).reverse

/-- QString::split with Qt::KeepEmptyParts (the default of split(":")). -/
def qSplitKeep (sep : Char) : List Char → List (List Char)
  | [] => [[]]
  | c :: cs =>
    let r := qSplitKeep sep cs
    if c = sep then [] :: r
    else
      match r with
      | [] => [[c]]
      | h :: t => (c :: h) :: t

/-- QString::split with Qt::SkipEmptyParts. -/
def qSplitSkip (sep : Char) (s : List Char) : List (List Char) :=
  (qSplitKeep sep s).filter (fun p => p ≠ ([] : List Char))

/-- QString::startsWith(p, Qt::CaseInsensitive). -/
def startsWithCI : List Char → List Char → Bool
  | [], _ => true
  | _ :: _, [] => false
  | p :: ps, c :: cs => (p.toLower = c.toLower) && startsWithCI ps cs

/-- QString::operator< — lexicographic comparison by code unit. -/
def qstrLT : List Char → List Char → Bool
  | [], [] => false
  | [], _ :: _ => true
  | _ :: _, [] => false
  | a :: as, b :: bs =>
    if a.val < b.val then true
    else if b.val < a.val then false
    else qstrLT as bs

/-- QString::operator>= in terms of the strict order. -/
def qstrGE (a b : List Char) : Bool := !qstrLT a b

/-- QString::operator<= in terms of the strict order. -/
def qstrLE (a b : List Char) : Bool := !qstrLT b a

/-- All whitespace removed.
Modelled from the spec: `StringUtil::removeWhitespace` (utilities/stringutil.h
is not part of the sources); the spec says "strip all whitespace from the
input first". -/
def removeWhitespace (s : List Char) : List Char :=
  s.filter (fun c => !qIsSpace c)

/-! ## Dates (QDate, ISO format) -/

/-- A valid calendar date, the model of a valid `QDate`.  An invalid/null
QDate is `(none : Option IsoDate)`. -/
structure IsoDate where
  year : Nat
  month : Nat
  day : Nat
deriving DecidableEq, Repr

def isLeapYear (y : Nat) : Bool :=
  (y % 4 = 0 && y % 100 ≠ 0) || y % 400 = 0

def daysInMonth (y m : Nat) : Nat :=
  if m = 2 then (if isLeapYear y then 29 else 28)
  else if m = 4 ∨ m = 6 ∨ m = 9 ∨ m = 11 then 30
  else 31

def digitVal (c : Char) : Nat := c.toNat - 48

/-- QDate::fromString(s, Qt::ISODate): accepts `yyyy-MM-dd`, returns an
invalid date (`none`) otherwise. -/
def qdateFromISO (s : List Char) : Option IsoDate :=
  match s with
  | [y1, y2, y3, y4, h1, m1, m2, h2, d1, d2] =>
    if h1 = '-' ∧ h2 = '-' ∧
       y1.isDigit ∧ y2.isDigit ∧ y3.isDigit ∧ y4.isDigit ∧
       m1.isDigit ∧ m2.isDigit ∧ d1.isDigit ∧ d2.isDigit then
      let y := ((digitVal y1 * 10 + digitVal y2) * 10 + digitVal y3) * 10 + digitVal y4
      let m := digitVal m1 * 10 + digitVal m2
      let d := digitVal d1 * 10 + digitVal d2
      if 1 ≤ m ∧ m ≤ 12 ∧ 1 ≤ d ∧ d ≤ daysInMonth y m then some ⟨y, m, d⟩ else none
    else none
  | _ => none

/-- QDate::operator< on possibly-invalid dates: a null/invalid date's julian
day is minimal, so it compares below every valid date. -/
def qdateLT : Option IsoDate → Option IsoDate → Bool
  | none, none => false
  | none, some _ => true
  | some _, none => false
  | some a, some b =>
    a.year < b.year ||
      (a.year = b.year &&
        (a.month < b.month || (a.month = b.month && a.day < b.day)))

/-- `a ≤ b` for possibly-invalid dates. -/
def qdateLE (a b : Option IsoDate) : Bool := !qdateLT b a

/-! ## BCP47Language (the registry record) -/

/-- BCP47Language::Type. -/
inductive LangType
  | BAD_TAG
  | LANGUAGE
  | EXTLANG
  | SCRIPT
  | REGION
  | VARIANT
  | GRANDFATHERED
  | REDUNDANT
deriving DecidableEq, Repr

/-- BCP47Language::TagType.  In the C++ enum some distinct names share the
same numeric value (e.g. VARIANT_LANGUAGE and REDUNDANT_LANGUAGE are both
0x200000); no code path compared here relies on that aliasing, so the
constructors are modelled as distinct. -/
inductive TagType
  | NO_VALUE
  | PRIMARY_LANGUAGE
  | PRIVATE_LANGUAGE
  | NO_PRIMARY_LANGUAGE
  | EXTENDED_LANGUAGE
  | NO_EXTENDED_LANGUAGE
  | SCRIPT_LANGUAGE
  | PRIVATE_SCRIPT
  | NO_SCRIPT
  | REGIONAL_LANGUAGE
  | PRIVATE_REGION
  | NO_REGION
  | VARIANT_LANGUAGE
  | NO_VARIANT_LANGUAGE
  | GRANDFATHERED_LANGUAGE
  | NO_GRANDFATHERED_LANGUAGE
  | REDUNDANT_LANGUAGE
  | NO_REDUNDANT_LANGUAGE
  | BAD_SUBTAG
deriving DecidableEq, Repr

/-- BCP47Language: one registry record.  The default field values mirror the
C++ default constructor (type LANGUAGE, all flags false, everything empty). -/
structure Lang where
  type : LangType := .LANGUAGE
  subtag : List Char := []
  tag : List Char := []
  descriptions : List (List Char) := []
  added : Option IsoDate := none
  suppressScriptLang : List Char := []
  macrolanguageName : List Char := []
  comments : List Char := []
  preferredValue : List Char := []
  prefixes : List (List Char) := []
  macrolanguage : Bool := false
  collection : Bool := false
  deprecated : Bool := false
deriving DecidableEq, Repr

/-- BCP47Language::addDescription — appends a new description entry. -/
def Lang.addDescription (l : Lang) (d : List Char) : Lang :=
  { l with descriptions := l.descriptions ++ [d] }

/-- BCP47Language::appendDescription — folds continuation text onto the last
description entry (newline-joined); appends if the list is empty. -/
def Lang.appendDescription (l : Lang) (d : List Char) : Lang :=
  match l.descriptions.reverse with
  | [] => { l with descriptions := [d] }
  | last :: restRev =>
    { l with descriptions := restRev.reverse ++ [last ++ '\n' :: d] }

/-- BCP47Language::appendComment — always prepends a newline to the extra
text before appending it to the comment. -/
def Lang.appendComment (l : Lang) (extra : List Char) : Lang :=
  { l with comments := l.comments ++ '\n' :: extra }

/-! ## The static maps of BCP47Languages -/

/-- QMap::value on an association list: the value for the key, or `none`
(a null QSharedPointer) when the key is absent. -/
def qmapValue (m : List (List Char × Lang)) (k : List Char) : Option Lang :=
  match m.find? (fun e => e.1 = k) with
  | some e => some e.2
  | none => none

/-- QMap::contains / keys().contains on an association list. -/
def qmapContains (m : List (List Char × Lang)) (k : List Char) : Bool :=
  m.any (fun e => e.1 = k)

/-- QMap::insert: replaces the value when the key is present, otherwise adds
the entry. -/
def qmapInsert (m : List (List Char × Lang)) (k : List Char) (v : Lang) :
    List (List Char × Lang) :=
  if qmapContains m k then
    m.map (fun e => if e.1 = k then (k, v) else e)
  else m ++ [(k, v)]

/-- QMultiMap::insert: always adds an entry. -/
def multiInsert (m : List (List Char × Lang)) (k : List Char) (v : Lang) :
    List (List Char × Lang) :=
  m ++ [(k, v)]

/-- QMultiMap::values(key): most recently inserted first. -/
def multiValues (m : List (List Char × Lang)) (k : List Char) : List Lang :=
  ((m.filter (fun e => e.1 = k)).map (fun e => e.2)).reverse

/-- Insert a key into a sorted key list unless already present
(QMap keys are kept sorted). -/
def insSortedKey (k : List Char) : List (List Char) → List (List Char)
  | [] => [k]
  | h :: t =>
    if qstrLT k h then k :: h :: t
    else if k = h then h :: t
    else h :: insSortedKey k t

/-- QMultiMap::uniqueKeys: the sorted list of distinct keys. -/
def uniqueKeysSorted (m : List (List Char × Lang)) : List (List Char) :=
  m.foldl (fun ks e => insSortedKey e.1 ks) []

/-- The static map state of class BCP47Languages (all the `m_*` maps plus
`m_fileDate`). -/
structure Maps where
  datasetByDescription : List (List Char × Lang) := []
  languageByDescription : List (List Char × Lang) := []
  languageBySubtag : List (List Char × Lang) := []
  extlangByDescription : List (List Char × Lang) := []
  extlangBySubtag : List (List Char × Lang) := []
  regionByDescription : List (List Char × Lang) := []
  regionBySubtag : List (List Char × Lang) := []
  scriptByDescription : List (List Char × Lang) := []
  scriptBySubtag : List (List Char × Lang) := []
  variantByDescription : List (List Char × Lang) := []
  variantBySubtag : List (List Char × Lang) := []
  grandfatheredByDescription : List (List Char × Lang) := []
  grandfatheredByTag : List (List Char × Lang) := []
  redundantByDescription : List (List Char × Lang) := []
  redundantByTag : List (List Char × Lang) := []
  fileDate : Option IsoDate := none
deriving DecidableEq, Repr

/-- BCP47Languages::isPrimaryLanguage. -/
def isPrimaryLanguage (st : Maps) (subtag : List Char) : Bool :=
  qmapContains st.languageBySubtag subtag

/-- BCP47Languages::isExtLang. -/
def isExtLang (st : Maps) (subtag : List Char) : Bool :=
  qmapContains st.extlangBySubtag subtag

/-- BCP47Languages::isVariant. -/
def isVariant (st : Maps) (subtag : List Char) : Bool :=
  qmapContains st.variantBySubtag subtag

/-- BCP47Languages::isRegion. -/
def isRegion (st : Maps) (subtag : List Char) : Bool :=
  qmapContains st.regionBySubtag subtag

/-- BCP47Languages::isScript. -/
def isScript (st : Maps) (subtag : List Char) : Bool :=
  qmapContains st.scriptBySubtag subtag

/-- BCP47Languages::isGrandfathered (consults the grandfathered tag map). -/
def isGrandfathered (st : Maps) (subtag : List Char) : Bool :=
  qmapContains st.grandfatheredByTag subtag

/-- BCP47Languages::isRedundant (consults the redundant tag map). -/
def isRedundant (st : Maps) (subtag : List Char) : Bool :=
  qmapContains st.redundantByTag subtag

/-- BCP47Languages::languageFromSubtag. -/
def languageFromSubtag (st : Maps) (subtag : List Char) : Option Lang :=
  qmapValue st.languageBySubtag subtag

/-- BCP47Languages::languageFromDescription. -/
def languageFromDescription (st : Maps) (description : List Char) : Option Lang :=
  qmapValue st.languageByDescription description

/-! ## String literals used by the source -/

def sI : List Char := "i".toList
def sX : List Char := "x".toList
def sQaa : List Char := "qaa".toList
def sQtz : List Char := "qtz".toList
def sQaaa : List Char := "Qaaa".toList
def sQabx : List Char := "Qabx".toList
def sAA : List Char := "AA".toList
def sQM : List Char := "QM".toList
def sQZ : List Char := "QZ".toList
def sXA : List Char := "XA".toList
def sXZ : List Char := "XZ".toList
def sZZ : List Char := "ZZ".toList

/-! ## Subtag classification (checkXxx) -/

/-- BCP47Languages::checkPrimaryLanguage.  Note the private-use test is a
bare lexicographic range check `value >= "qaa" && value <= "qtz"` with no
length restriction. -/
def checkPrimaryLanguage (st : Maps) (value : List Char) : TagType :=
  if value = sI ∨ value = sX ∨ (qstrGE value sQaa = true ∧ qstrLE value sQtz = true) then
    .PRIVATE_LANGUAGE
  else if isPrimaryLanguage st value = true then .PRIMARY_LANGUAGE
  else .NO_PRIMARY_LANGUAGE

/-- BCP47Languages::checkExtendedlanguage. -/
def checkExtendedlanguage (st : Maps) (value : List Char) : TagType :=
  if isExtLang st value = true then .EXTENDED_LANGUAGE
  else .NO_EXTENDED_LANGUAGE

/-- BCP47Languages::checkScript. -/
def checkScript (st : Maps) (value : List Char) : TagType :=
  if isScript st value = true then .SCRIPT_LANGUAGE
  else if qstrGE value sQaaa = true ∧ qstrLE value sQabx = true then .PRIVATE_SCRIPT
  else .NO_SCRIPT

/-- BCP47Languages::checkRegion. -/
def checkRegion (st : Maps) (value : List Char) : TagType :=
  if isRegion st value = true then .REGIONAL_LANGUAGE
  else if value = sAA ∨ (qstrGE value sQM = true ∧ qstrLE value sQZ = true) ∨
          (qstrGE value sXA = true ∧ qstrLE value sXZ = true) ∨ value = sZZ then
    .PRIVATE_REGION
  else .NO_REGION

/-- BCP47Languages::checkVariant. -/
def checkVariant (st : Maps) (value : List Char) : TagType :=
  if isVariant st value = true then .VARIANT_LANGUAGE
  else .NO_VARIANT_LANGUAGE

/-- BCP47Languages::checkGrandfathered. -/
def checkGrandfathered (st : Maps) (value : List Char) : TagType :=
  if isGrandfathered st value = true then .GRANDFATHERED_LANGUAGE
  else .NO_GRANDFATHERED_LANGUAGE

/-- BCP47Languages::checkRedundant.  The body tests `isVariant`, not
`isRedundant`. -/
def checkRedundant (st : Maps) (value : List Char) : TagType :=
  if isVariant st value = true then .REDUNDANT_LANGUAGE
  else .NO_REDUNDANT_LANGUAGE

/-! ## The tokenizer (BCP47Languages::testTag) -/

/-- BCP47Language::TagTestResult.  `new TagTestResult()` value-initialises
all members, giving these defaults. -/
structure TagTestResult where
  type : TagType := .NO_VALUE
  start : Nat := 0
  length : Nat := 0
  text : List Char := []
deriving DecidableEq, Repr

/-- The body of testTag's candidate-closing block: classify `subvalue` in
priority order and build the token.  In the BAD_SUBTAG fallback the source
never assigns `result->text`, so the text stays empty. -/
def classifyClose (st : Maps) (subvalue : List Char) (start : Nat) : TagTestResult :=
  let t1 := checkPrimaryLanguage st subvalue
  if t1 ≠ .NO_PRIMARY_LANGUAGE then
    { type := t1, start := start, length := subvalue.length, text := subvalue }
  else
    let t2 := checkExtendedlanguage st subvalue
    if t2 ≠ .NO_EXTENDED_LANGUAGE then
      { type := t2, start := start, length := subvalue.length, text := subvalue }
    else
      let t3 := checkScript st subvalue
      if t3 ≠ .NO_SCRIPT then
        { type := t3, start := start, length := subvalue.length, text := subvalue }
      else
        let t4 := checkRegion st subvalue
        if t4 ≠ .NO_REGION then
          { type := t4, start := start, length := subvalue.length, text := subvalue }
        else
          { type := .BAD_SUBTAG, start := start, length := subvalue.length, text := [] }

/-- The character loop of BCP47Languages::testTag.  `subvalue` is the
accumulated candidate buffer (never cleared by the source), `result` the
currently open `TagTestResult` (`none` = null pointer; holds only the
recorded start offset until the candidate closes).  Closing a candidate
while `result` is null dereferences the null pointer; that is modelled by
returning `none` for the whole call. -/
def testTagGo (st : Maps) (len : Nat) :
    List Char → Nat → List Char → Option Nat → List TagTestResult →
    Option (List TagTestResult)
  | [], _, _, result, results =>
    match result with
    | some s => some (results ++ [{ start := s }])
    | none => some results
  | c :: cs, i, subvalue, result, results =>
    let pos := i + 1
    let subvalue2 := if c ≠ '-' ∧ pos ≤ len then subvalue ++ [c] else subvalue
    let result2 :=
      if c ≠ '-' ∧ pos ≤ len then
        match result with
        | none => some i
        | some s => some s
      else result
    if c = '-' ∨ pos = len then
      match result2 with
      | none => none
      | some s =>
        testTagGo st len cs (i + 1) subvalue2 none
          (results ++ [classifyClose st subvalue2 s])
    else testTagGo st len cs (i + 1) subvalue2 result2 results

/-- BCP47Languages::testTag: strip whitespace, then scan the characters. -/
def testTag (st : Maps) (tag : List Char) : Option (List TagTestResult) :=
  let testValue := removeWhitespace tag
  testTagGo st testValue.length testValue 0 [] none []

/-! ## Tag builders -/

/-- QVector::at(0): out of range on an empty vector is undefined behaviour,
modelled as `none`. -/
def listAt0 : List (List Char) → Option (List Char)
  | [] => none
  | x :: _ => some x

def dashChar : Char := '-'

/-- BCP47Languages::languageTag — the only builder with complete null
checks, hence total. -/
def languageTag (st : Maps) (languageName regionName : List Char) : List Char :=
  let tag := qmapValue st.languageBySubtag languageName
  if regionName = ([] : List Char) then
    match tag with
    | some t => t.subtag
    | none => []
  else
    match tag, qmapValue st.regionBySubtag regionName with
    | some t, some r => t.subtag ++ dashChar :: r.subtag
    | _, _ => []

/-- BCP47Languages::scriptTag.  The guard is
`if (!tags.isNull() || !scriptTag.isNull())` — a disjunction — after which
both pointers are dereferenced, so resolving exactly one of the two names
dereferences a null pointer (`none`). -/
def scriptTag (st : Maps) (languageName scriptName : List Char) : Option (List Char) :=
  let tags := qmapValue st.languageBySubtag languageName
  let script := qmapValue st.scriptBySubtag scriptName
  if tags.isSome || script.isSome then
    match tags, script with
    | some t, some s =>
      match listAt0 t.prefixes with
      | some p => some (p ++ dashChar :: (s.subtag ++ dashChar :: t.subtag))
      | none => none
    | _, _ => none
  else some []

/-- BCP47Languages::variantTag.  Same disjunctive guard bug as scriptTag in
the non-empty-region branch. -/
def variantTag (st : Maps) (scriptName region : List Char) : Option (List Char) :=
  let tags := qmapValue st.variantBySubtag scriptName
  if region = ([] : List Char) then
    match tags with
    | some t =>
      match listAt0 t.prefixes with
      | some p => some (p ++ dashChar :: t.subtag)
      | none => none
    | none => some []
  else
    let regTag := qmapValue st.regionBySubtag region
    if tags.isSome || regTag.isSome then
      match tags, regTag with
      | some t, some r =>
        match listAt0 t.prefixes with
        | some p => some (p ++ dashChar :: (r.subtag ++ dashChar :: t.subtag))
        | none => none
      | _, _ => none
    else some []

/-- BCP47Languages::extLangTag — looks the name up in `m_languageBySubtag`
and dereferences the result with no null check at all. -/
def extLangTag (st : Maps) (extlanName : List Char) : Option (List Char) :=
  match qmapValue st.languageBySubtag extlanName with
  | some t =>
    match listAt0 t.prefixes with
    | some p => some (p ++ dashChar :: t.preferredValue)
    | none => none
  | none => none

/-! ## BCP47Languages::updateMaps and ::iainFileParsed -/

/-- One iteration body of updateMaps' switch: bucket `language` into its
kind's description map and subtag/tag map. -/
def insertByType (st : Maps) (description : List Char) (l : Lang) : Maps :=
  match l.type with
  | .LANGUAGE =>
    { st with languageByDescription := qmapInsert st.languageByDescription description l,
              languageBySubtag := qmapInsert st.languageBySubtag l.subtag l }
  | .EXTLANG =>
    { st with extlangByDescription := qmapInsert st.extlangByDescription description l,
              extlangBySubtag := qmapInsert st.extlangBySubtag l.subtag l }
  | .REGION =>
    { st with regionByDescription := qmapInsert st.regionByDescription description l,
              regionBySubtag := qmapInsert st.regionBySubtag l.subtag l }
  | .SCRIPT =>
    { st with scriptByDescription := qmapInsert st.scriptByDescription description l,
              scriptBySubtag := qmapInsert st.scriptBySubtag l.subtag l }
  | .VARIANT =>
    { st with variantByDescription := qmapInsert st.variantByDescription description l,
              variantBySubtag := qmapInsert st.variantBySubtag l.subtag l }
  | .GRANDFATHERED =>
    { st with grandfatheredByDescription := multiInsert st.grandfatheredByDescription description l,
              grandfatheredByTag := qmapInsert st.grandfatheredByTag l.tag l }
  | .REDUNDANT =>
    { st with redundantByDescription := qmapInsert st.redundantByDescription description l,
              redundantByTag := qmapInsert st.redundantByTag l.tag l }
  | .BAD_TAG => st

/-- BCP47Languages::updateMaps.  Only the seven subtag/tag maps are
cleared; the description maps are never cleared, they only receive
inserts. -/
def updateMaps (st : Maps) : Maps :=
  let st := { st with languageBySubtag := [], extlangBySubtag := [], regionBySubtag := [],
                      scriptBySubtag := [], variantBySubtag := [],
                      grandfatheredByTag := [], redundantByTag := [] }
  (uniqueKeysSorted st.datasetByDescription).foldl
    (fun st2 description =>
      (multiValues st.datasetByDescription description).foldl
        (fun st3 l => insertByType st3 description l) st2)
    st

/-- The observable side effects of BCP47Languages::iainFileParsed:
`saveToLocalFile`, the `sendMessage` signal, and the `error` signal. -/
inductive Emission
  | saved
  | message
  | errorEmit
deriving DecidableEq, Repr

/-- BCP47Languages::iainFileParsed: replace the dataset and file date only
when the parsed file date is strictly newer and there were no parse errors.
Note that it does NOT call updateMaps. -/
def iainFileParsed (st : Maps) (languages : List (List Char × Lang))
    (fileDate : Option IsoDate) (noErrors : Bool) : Maps × List Emission :=
  if qdateLT st.fileDate fileDate then
    if noErrors then
      ({ st with fileDate := fileDate, datasetByDescription := languages },
       [.saved, .message])
    else (st, [.errorEmit])
  else (st, [])

/-! ## LanguageParser -/

/-- The LanguageParser::Error flags (OR-able, so modelled as a flag
record). -/
structure PErr where
  badFileDate : Bool := false
  emptyName : Bool := false
  emptyValue : Bool := false
  unknownTagType : Bool := false
deriving DecidableEq, Repr

/-- BCP47Languages::State, the parser's line state machine. -/
inductive ParseSt
  | UNKNOWN
  | STARTED
  | FINISHED
  | DESCRIPTION
  | COMMENT
deriving DecidableEq, Repr

/-- The local state of LanguageParser::parse while scanning characters. -/
structure ParserAcc where
  line : List Char := []
  state : ParseSt := .UNKNOWN
  dateFound : Bool := false
  lang : Option Lang := none
  lineNumber : Nat := 0
  langMap : List (List Char × Lang) := []
  errors : List (Nat × PErr) := []
  fileDate : Option IsoDate := none
deriving DecidableEq, Repr

def sFileDate : List Char := "file-date".toList
def sSep : List Char := "%%".toList
def sType : List Char := "type".toList
def sTag : List Char := "tag".toList
def sSubtag : List Char := "subtag".toList
def sDescription : List Char := "description".toList
def sAdded : List Char := "added".toList
def sSuppressScript : List Char := "suppress-script".toList
def sPrefixName : List Char := "prefix".toList
def sMacrolanguage : List Char := "macrolanguage".toList
def sDeprecatedName : List Char := "deprecated".toList
def sPreferredValue : List Char := "preferred-value".toList
def sScope : List Char := "scope".toList
def sComments : List Char := "comments".toList
def sLanguage : List Char := "language".toList
def sExtlang : List Char := "extlang".toList
def sScript : List Char := "script".toList
def sRegion : List Char := "region".toList
def sVariant : List Char := "variant".toList
def sGrandfathered : List Char := "grandfathered".toList
def sRedundant : List Char := "redundant".toList
def sMacrolanguge : List Char := "macrolanguge".toList
def sCollection : List Char := "collection".toList

/-- BCP47Languages::TAGTYPES, the recognised field names. -/
def TAGTYPES : List (List Char) :=
  [sType, sTag, sSubtag, sDescription, sAdded, sSuppressScript, sPrefixName,
   sMacrolanguage, sDeprecatedName, sPreferredValue, sScope, sComments]

/-- BCP47Languages::isType: case-insensitive membership in TAGTYPES. -/
def bcpIsType (name : List Char) : Bool :=
  TAGTYPES.any (fun t => lowerStr name = lowerStr t)

/-- The reassembly loop of the multi-colon branch:
`for (; i < size; i++) value += (":" + splits.at(i));`. -/
def reassembleFrom (splits : List (List Char)) (i0 : Nat) (init : List Char) :
    List Char :=
  (splits.drop i0).foldl (fun v s => v ++ ':' :: s) init

/-- The name/value extraction of the colon-line branch of
LanguageParser::parse (lines 1304-1353): split with SkipEmptyParts, then
depending on the number of parts either take the line as value, trim
name/value, or reassemble the extra colon-separated parts — starting from
the trimmed NAME itself when the name is a recognised field. -/
structure NameValue where
  rawSize : Nat
  name : List Char := []
  nameIsType : Bool := false
  value : List Char := []
deriving DecidableEq, Repr

def colonNameValue (line : List Char) : NameValue :=
  match qSplitSkip ':' line with
  | [] => { rawSize := 0 }
  | [_] => { rawSize := 1, value := line }
  | [s0, s1] =>
    let name := qTrim s0
    { rawSize := 2, name := name, nameIsType := bcpIsType name, value := qTrim s1 }
  | s0 :: s1 :: s2 :: rest =>
    let name := qTrim s0
    let it := bcpIsType name
    let value :=
      if it then reassembleFrom (s0 :: s1 :: s2 :: rest) 1 name
      else reassembleFrom (s0 :: s1 :: s2 :: rest) 2 s1
    { rawSize := (s0 :: s1 :: s2 :: rest).length, name := name, nameIsType := it,
      value := qTrim value }

/-- The scope field branch (lines 1417-1425): only the literal values
`"macrolanguge"` (sic) and `"collection"` set a flag; everything else —
including `"deprecated"` and the correctly spelled `"macrolanguage"` — is
ignored. -/
def applyScope (value : List Char) : Option Lang → Option Lang
  | some l =>
    if value = sMacrolanguge then some { l with macrolanguage := true }
    else if value = sCollection then some { l with collection := true }
    else some l
  | none => none

/-- Guarded field setter: `if (language) language->set...; line.clear();`. -/
def withLangClear (acc : ParserAcc) (f : Lang → Lang) : ParserAcc :=
  match acc.lang with
  | some l => { acc with lang := some (f l), line := [] }
  | none => { acc with line := [] }

/-- The recognised-field dispatch of LanguageParser::parse
(lines 1355-1434).  The `type` branch calls `language->setType` with no
null guard, so a type line before any record separator dereferences a null
pointer (`none`). -/
def applyNamedField (lName value : List Char) (acc : ParserAcc) : Option ParserAcc :=
  if lName = sType then
    let lValue := lowerStr value
    if lValue = sLanguage then
      match acc.lang with
      | some l => some { acc with lang := some { l with type := .LANGUAGE }, line := [] }
      | none => none
    else if lValue = sExtlang then
      match acc.lang with
      | some l => some { acc with lang := some { l with type := .EXTLANG }, line := [] }
      | none => none
    else if lValue = sScript then
      match acc.lang with
      | some l => some { acc with lang := some { l with type := .SCRIPT }, line := [] }
      | none => none
    else if lValue = sRegion then
      match acc.lang with
      | some l => some { acc with lang := some { l with type := .REGION }, line := [] }
      | none => none
    else if lValue = sVariant then
      match acc.lang with
      | some l => some { acc with lang := some { l with type := .VARIANT }, line := [] }
      | none => none
    else if lValue = sGrandfathered then
      match acc.lang with
      | some l => some { acc with lang := some { l with type := .GRANDFATHERED }, line := [] }
      | none => none
    else if lValue = sRedundant then
      match acc.lang with
      | some l => some { acc with lang := some { l with type := .REDUNDANT }, line := [] }
      | none => none
    else
      some { acc with
        errors := acc.errors ++ [(acc.lineNumber, { unknownTagType := true })],
        line := [] }
  else if lName = sTag then
    some (withLangClear acc (fun l => { l with tag := value }))
  else if lName = sSubtag then
    some (withLangClear acc (fun l => { l with subtag := value }))
  else if lName = sDescription then
    match acc.lang with
    | some l =>
      some { acc with lang := some (l.addDescription value), state := .DESCRIPTION, line := [] }
    | none => some { acc with line := [] }
  else if lName = sAdded then
    some (withLangClear acc (fun l => { l with added := qdateFromISO value }))
  else if lName = sSuppressScript then
    some (withLangClear acc (fun l => { l with suppressScriptLang := value }))
  else if lName = sPrefixName then
    some (withLangClear acc (fun l => { l with prefixes := l.prefixes ++ [value] }))
  else if lName = sMacrolanguage then
    some (withLangClear acc (fun l => { l with macrolanguageName := value }))
  else if lName = sDeprecatedName then
    some (withLangClear acc (fun l => { l with deprecated := true }))
  else if lName = sPreferredValue then
    some (withLangClear acc (fun l => { l with preferredValue := value }))
  else if lName = sScope then
    some { acc with lang := applyScope value acc.lang, line := [] }
  else if lName = sComments then
    match acc.lang with
    | some l =>
      some { acc with lang := some { l with comments := value }, state := .COMMENT, line := [] }
    | none => some { acc with line := [] }
  else
    -- unreachable when nameIsType, and the source does not clear the line here
    some { acc with errors := acc.errors ++ [(acc.lineNumber, { unknownTagType := true })] }

/-- The continuation fallback: a Description or Comment run-over line is
folded onto the current record; otherwise the line is dropped.  Either way
the line buffer is cleared.  The append calls are unguarded in the source,
but DESCRIPTION/COMMENT states imply a live record. -/
def contLine (acc : ParserAcc) : Option ParserAcc :=
  match acc.state with
  | .DESCRIPTION =>
    match acc.lang with
    | some l => some { acc with lang := some (l.appendDescription acc.line), line := [] }
    | none => none
  | .COMMENT =>
    match acc.lang with
    | some l => some { acc with lang := some (l.appendComment acc.line), line := [] }
    | none => none
  | _ => some { acc with line := [] }

/-- The colon-line branch.  With zero non-empty parts the source records
EMPTY_NAME|EMPTY_VALUE and `continue`s WITHOUT clearing the line; with two
parts a failed name/value sanity check records an EMPTY_NAME error (the
flag actually inserted by the source, whatever `e` accumulated). -/
def processColonLine (acc : ParserAcc) : Option ParserAcc :=
  let nv := colonNameValue acc.line
  if nv.rawSize = 0 then
    some { acc with
      errors := acc.errors ++ [(acc.lineNumber, { emptyName := true, emptyValue := true })] }
  else
    let acc2 :=
      if nv.rawSize = 2 ∧ acc.state ≠ .COMMENT ∧
         (nv.nameIsType = false ∨ nv.value = ([] : List Char)) then
        { acc with errors := acc.errors ++ [(acc.lineNumber, { emptyName := true })] }
      else acc
    if 2 ≤ nv.rawSize ∧ nv.nameIsType = true then
      applyNamedField (lowerStr nv.name) nv.value acc2
    else contLine acc2

/-- Fold a finished record into the result multimap, once per
description. -/
def foldLang (langMap : List (List Char × Lang)) (l : Lang) :
    List (List Char × Lang) :=
  l.descriptions.foldl (fun m d => m ++ [(d, l)]) langMap

/-- The `%%` separator branch: close any in-progress record, then (unless
the state is already STARTED) open a fresh one. -/
def processSep (acc : ParserAcc) : Option ParserAcc :=
  let acc2 :=
    match acc.lang with
    | some l =>
      { acc with langMap := foldLang acc.langMap l, lang := none, state := .FINISHED }
    | none => acc
  let acc3 :=
    if acc2.state ≠ .STARTED then
      { acc2 with state := .STARTED, lang := some ({} : Lang) }
    else acc2
  some { acc3 with line := [] }

/-- Processing of one completed line (the `c == '\n'` body of
LanguageParser::parse).  Until a file-date line has been accepted, every
line is checked against `file-date`; the failure branch records
BAD_FILE_DATE and does NOT clear the line buffer, and the
starts-with-file-date-but-wrong-split branch neither clears nor records
anything. -/
def processLine (acc0 : ParserAcc) : Option ParserAcc :=
  let acc := { acc0 with lineNumber := acc0.lineNumber + 1 }
  if acc.dateFound then
    if acc.line = sSep then processSep acc
    else if acc.line.contains ':' then processColonLine acc
    else contLine acc
  else
    if startsWithCI sFileDate acc.line then
      match qSplitKeep ':' acc.line with
      | [_, s1] =>
        some { acc with fileDate := qdateFromISO (qTrim s1), dateFound := true, line := [] }
      | _ => some acc
    else
      some { acc with errors := acc.errors ++ [(acc.lineNumber, { badFileDate := true })] }

/-- The character loop of LanguageParser::parse: accumulate until a
newline, then process the line.  Characters after the last newline are
left in the buffer and discarded, as in the source. -/
def parseGo : List Char → ParserAcc → Option ParserAcc
  | [], acc => some acc
  | c :: cs, acc =>
    if c = '\n' then
      match processLine acc with
      | none => none
      | some acc2 => parseGo cs acc2
    else parseGo cs { acc with line := acc.line ++ [c] }

/-- What LanguageParser::parse reports: the record multimap, the file date,
`noErrors` as passed to parseCompleted, and the error multimap. -/
structure ParseResult where
  records : List (List Char × Lang)
  fileDate : Option IsoDate
  noErrors : Bool
  errors : List (Nat × PErr)
deriving DecidableEq, Repr

/-- LanguageParser::parse: run the character loop, fold any still-open
record, and report.  `none` models a crash (null dereference). -/
def parse (data : List Char) : Option ParseResult :=
  match parseGo data ({} : ParserAcc) with
  | none => none
  | some acc =>
    let m :=
      match acc.lang with
      | some l => foldLang acc.langMap l
      | none => acc.langMap
    some { records := m, fileDate := acc.fileDate,
           noErrors := acc.errors.isEmpty, errors := acc.errors }

/-! ## Concrete fixtures -/

def sEn : List Char := "en".toList
def sGB : List Char := "GB".toList
def sFr : List Char := "fr".toList
def sEnglish : List Char := "English".toList
def sFrench : List Char := "French".toList
def sUnitedKingdom : List Char := "United Kingdom".toList
def sNedis : List Char := "nedis".toList
def sSl : List Char := "sl".toList
def sNosuch : List Char := "nosuch".toList
def sZzzz : List Char := "Zzzz".toList
def sQQ : List Char := "QQ".toList
def sQb : List Char := "qb".toList
def sQaaaLc : List Char := "qaaa".toList
def sOedTag : List Char := "en-GB-oed".toList
def tEnGB : List Char := "en-GB".toList
def tDashA : List Char := "-a".toList
def tADashDashB : List Char := "a--b".toList
def tADash : List Char := "a-".toList

/-- A registered primary-language record for "en". -/
def enRec : Lang :=
  { type := .LANGUAGE, subtag := sEn, descriptions := [sEnglish], prefixes := [sEn] }

/-- A registered region record for "GB". -/
def gbRec : Lang :=
  { type := .REGION, subtag := sGB, descriptions := [sUnitedKingdom] }

/-- An index with "en" as a Language subtag and "GB" as a Region subtag. -/
def mapsEnGB : Maps :=
  { languageBySubtag := [(sEn, enRec)], regionBySubtag := [(sGB, gbRec)] }

/-- A registered variant record for "nedis" with prefix "sl". -/
def nedisRec : Lang :=
  { type := .VARIANT, subtag := sNedis, descriptions := ["Natisone dialect".toList],
    prefixes := [sSl] }

/-- An index where "en" (language) and "nedis" (variant) resolve but no
script and no region does. -/
def mapsBuilders : Maps :=
  { languageBySubtag := [(sEn, enRec)], variantBySubtag := [(sNedis, nedisRec)] }

/-- A registered primary-language record for "fr". -/
def frRec : Lang :=
  { type := .LANGUAGE, subtag := sFr, descriptions := [sFrench] }

/-- An index holding a 2020 dataset containing only the "fr" record, with
all per-kind maps built from it. -/
def mapsOld : Maps :=
  { fileDate := some ⟨2020, 1, 1⟩,
    datasetByDescription := [(sFrench, frRec)],
    languageByDescription := [(sFrench, frRec)],
    languageBySubtag := [(sFr, frRec)] }

def d2020 : Option IsoDate := some ⟨2020, 1, 1⟩
def d2021 : Option IsoDate := some ⟨2021, 1, 1⟩

/-- A registered redundant record for the tag "en-GB-oed". -/
def oedRec : Lang :=
  { type := .REDUNDANT, tag := sOedTag,
    descriptions := ["English, Oxford English Dictionary spelling".toList] }

/-- An index where "en-GB-oed" is a redundant tag and the variant index is
empty. -/
def mapsRedundant : Maps := { redundantByTag := [(sOedTag, oedRec)] }

/-- A parser state in the middle of a record (live default-constructed
language, file date already found). -/
def accScope : ParserAcc :=
  { lang := some ({} : Lang), dateFound := true, state := .STARTED }

/-- A registry document whose first substantive line is not a file-date
line, followed by a well-formed record. -/
def docC4 : List Char :=
  "xx\n%%\ntype: language\nsubtag: en\ndescription: English\n%%\n".toList

/-- The BAD_FILE_DATE error flag value. -/
def badFD : PErr := { badFileDate := true }

/-- A well-formed registry document whose comments field value contains a
colon. -/
def docC5 : List Char :=
  "file-date: 2018-01-01\n%%\ntype: language\nsubtag: en\ndescription: English\ncomments: at 12:00\n%%\n".toList

/-- The value actually stored for the comments field of docC5. -/
def c5Stored : List Char := "comments: at 12:00".toList

def c5Line : List Char := "comments: at 12:00".toList
def c5S0 : List Char := "comments".toList
def c5S1 : List Char := " at 12".toList
def c5S2 : List Char := "00".toList

/-! ## Helper lemmas -/

/-- A case-insensitive prefix of a list is a prefix of any extension. -/
theorem startsWithCI_append_true (p : List Char) :
    ∀ l m : List Char, startsWithCI p l = true → startsWithCI p (l ++ m) = true := by
  induction p with
  | nil => intro l m _; simp [startsWithCI]
  | cons a ps ih =>
    intro l m h
    cases l with
    | nil => simp [startsWithCI] at h
    | cons c cs =>
      simp only [startsWithCI, Bool.and_eq_true] at h
      simp only [List.cons_append, startsWithCI, Bool.and_eq_true]
      exact ⟨h.1, ih cs m h.2⟩

/-- Contrapositive form used on the accumulated line buffer. -/
theorem startsWithCI_of_append_false (p l m : List Char)
    (h : startsWithCI p (l ++ m) = false) : startsWithCI p l = false := by
  cases hl : startsWithCI p l with
  | false => rfl
  | true => rw [startsWithCI_append_true p l m hl] at h; exact h

/-- Shifting the initial accumulator out of the colon-joining fold. -/
theorem foldlColon_append (ys : List (List Char)) (init : List Char) :
    ys.foldl (fun v s => v ++ ':' :: s) init =
      init ++ ys.foldl (fun v s => v ++ ':' :: s) [] := by
  induction ys generalizing init with
  | nil => simp
  | cons y ys ih =>
    simp only [List.foldl_cons]
    rw [ih (init ++ ':' :: y), ih ([] ++ ':' :: y)]
    simp

/-- While no file-date line has been accepted and none can ever be (the
document's newline-stripped text does not start with "file-date", and the
failure branch never clears the line buffer), the parser stays in the
date-searching state: no record is built, the file date stays unset, errors
only accumulate, and the first completed line is flagged BAD_FILE_DATE. -/
theorem parseGo_noDate (cs : List Char) :
    ∀ acc : ParserAcc,
      acc.dateFound = false → acc.lang = none → acc.langMap = [] →
      acc.fileDate = none →
      startsWithCI sFileDate (acc.line ++ cs.filter (fun c => !(c == '\n'))) = false →
      ∃ acc2, parseGo cs acc = some acc2 ∧ acc2.dateFound = false ∧
        acc2.lang = none ∧ acc2.langMap = [] ∧ acc2.fileDate = none ∧
        (∀ e, e ∈ acc.errors → e ∈ acc2.errors) ∧
        ('\n' ∈ cs → (acc.lineNumber + 1, badFD) ∈ acc2.errors) := by
  induction cs with
  | nil =>
    intro acc hd hl hm hf _
    exact ⟨acc, rfl, hd, hl, hm, hf, fun _ he => he, by simp⟩
  | cons c cs ih =>
    intro acc hd hl hm hf hsw
    by_cases hc : c = '\n'
    · subst hc
      have hfil : ('\n' :: cs).filter (fun c => !(c == '\n')) =
          cs.filter (fun c => !(c == '\n')) := by simp
      rw [hfil] at hsw
      have hswl : startsWithCI sFileDate ({ acc with lineNumber := acc.lineNumber + 1} : ParserAcc).line = false :=
        startsWithCI_of_append_false _ _ _ hsw
      have hstep : processLine acc =
          some { acc with lineNumber := acc.lineNumber + 1,
                          errors := acc.errors ++ [(acc.lineNumber + 1, badFD)] } := by
        simp only [processLine, hd, Bool.false_eq_true, if_neg, hswl]
        simp [badFD]
      obtain ⟨acc2, hgo, h1, h2, h3, h4, hmono, hmem⟩ :=
        ih { acc with lineNumber := acc.lineNumber + 1,
                      errors := acc.errors ++ [(acc.lineNumber + 1, badFD)] }
          hd hl hm hf hsw
      refine ⟨acc2, ?_, h1, h2, h3, h4, ?_, ?_⟩
      · simp only [parseGo, if_pos rfl, hstep]
        exact hgo
      · intro e he
        exact hmono e (List.mem_append_left _ he)
      · intro _
        exact hmono _ (List.mem_append_right _ (List.mem_singleton.mpr rfl))
    · have hfil : (c :: cs).filter (fun c => !(c == '\n')) =
          c :: cs.filter (fun c => !(c == '\n')) := by
        simp [List.filter_cons, hc]
      rw [hfil] at hsw
      have hsw2 : startsWithCI sFileDate
          ((acc.line ++ [c]) ++ cs.filter (fun c => !(c == '\n'))) = false := by
        rw [List.append_assoc]
        simpa using hsw
      obtain ⟨acc2, hgo, h1, h2, h3, h4, hmono, hmem⟩ :=
        ih { acc with line := acc.line ++ [c] } hd hl hm hf hsw2
      refine ⟨acc2, ?_, h1, h2, h3, h4, hmono, ?_⟩
      · simp only [parseGo, if_neg hc]
        exact hgo
      · intro hin
        rcases List.mem_cons.mp hin with heq | hin2
        · exact absurd heq.symm hc
        · exact hmem hin2

/-! ## Claim theorems -/

/-- Claim C1: with "en" a registered Language subtag and "GB" a registered
Region subtag, the claim expects tokens PrimaryLanguage "en" (0,2) and
RegionalLanguage "GB" (3,2).  Evaluating the embedded testTag on "en-GB"
shows the first token is as claimed but the second is a BAD_SUBTAG token of
length 4 with empty text: the candidate buffer `subvalue` is never cleared
after a token closes, so the second candidate is the accumulated "enGB". -/
theorem testTag_enGB_eval :
    testTag mapsEnGB tEnGB =
      some [{ type := .PRIMARY_LANGUAGE, start := 0, length := 2, text := sEn },
            { type := .BAD_SUBTAG, start := 3, length := 4, text := [] }] := by
  decide

/-- Claim C2: the claim says testTag never aborts and closes every
candidate, including empty ones.  Evaluating the embedded testTag shows a
leading dash ("-a") and a doubled dash ("a--b") close a candidate while the
result pointer is still null — a null dereference, modelled as `none` —
and a trailing dash ("a-") silently drops the empty trailing candidate
instead of emitting a token for it. -/
theorem testTag_emptyCandidate_crash :
    testTag ({} : Maps) tDashA = none ∧
    testTag ({} : Maps) tADashDashB = none ∧
    testTag ({} : Maps) tADash =
      some [{ type := .BAD_SUBTAG, start := 0, length := 1, text := [] }] := by
  decide

/-- Claim C3: the claim says the tag builders return an empty string when a
name fails to resolve.  Evaluating the embedded builders shows extLangTag
on an unresolvable name, scriptTag with only the script unresolvable, and
variantTag with only the region unresolvable all dereference a null
pointer (`none`) instead of returning the empty string. -/
theorem tagBuilders_nullDeref :
    extLangTag mapsBuilders sNosuch = none ∧
    scriptTag mapsBuilders sEn sZzzz = none ∧
    variantTag mapsBuilders sNedis sQQ = none := by
  decide

/-- Claim C4 counterexample: a document whose first line is not a
file-date line but which contains a complete well-formed record parses to
an EMPTY record set (every line is flagged BAD_FILE_DATE), refuting "still
yields a non-empty parsed record set". -/
theorem parse_badFirstLine_cex :
    parse docC4 =
      some { records := [], fileDate := none, noErrors := false,
             errors := [(1, badFD), (2, badFD), (3, badFD),
                        (4, badFD), (5, badFD), (6, badFD)] } := by
  decide

/-- Claim C4 (amended): for every document whose newline-stripped text does
not start with "file-date" (case-insensitively), the parser records a
BadFileDate error for line 1, leaves fileDate unset, and never enters
record parsing, so the parsed record set is empty. -/
theorem parse_fileDateGate (doc : List Char)
    (hsw : startsWithCI sFileDate (doc.filter (fun c => !(c == '\n'))) = false)
    (hnl : '\n' ∈ doc) :
    ∃ r, parse doc = some r ∧ r.records = [] ∧ r.fileDate = none ∧
      (1, badFD) ∈ r.errors := by
  obtain ⟨acc2, hgo, hd, hl, hm, hf, hmono, hmem⟩ :=
    parseGo_noDate doc ({} : ParserAcc) rfl rfl rfl rfl (by simpa using hsw)
  have hparse : parse doc =
      some { records := acc2.langMap, fileDate := acc2.fileDate,
             noErrors := acc2.errors.isEmpty, errors := acc2.errors } := by
    simp only [parse, hgo, hl]
  exact ⟨_, hparse, hm, hf, by simpa using hmem hnl⟩

/-- Witness for parse_fileDateGate at the concrete document docC4. -/
theorem parse_fileDateGate_witness :
    ∃ r, parse docC4 = some r ∧ r.records = [] ∧ r.fileDate = none ∧
      (1, badFD) ∈ r.errors :=
  parse_fileDateGate docC4 (by decide) (by decide)

/-- Claim C5 counterexample: parsing a well-formed document whose comments
line contains a colon in its value stores "comments: at 12:00" — the field
name and first colon included — as the comments value, refuting "the
stored value does not include the field name". -/
theorem parse_commentsValue_cex :
    (parse docC5).map (fun r => r.records.map (fun e => (e.1, e.2.comments))) =
      some [(sEnglish, c5Stored)] ∧
    (parse docC5).map (fun r => r.noErrors) = some true := by
  decide

/-- Claim C5 (amended): for a line with at least three non-empty
colon-separated parts whose (trimmed) field name is recognised, the stored
value is the trimmed concatenation of the field name with the colon-joined
remainder — i.e. the value retains the later colons but also includes the
field name and the first colon. -/
theorem colonNameValue_recognized_keeps_name
    (line s0 s1 s2 : List Char) (rest : List (List Char))
    (hs : qSplitSkip ':' line = s0 :: s1 :: s2 :: rest)
    (ht : bcpIsType (qTrim s0) = true) :
    (colonNameValue line).nameIsType = true ∧
    (colonNameValue line).value =
      qTrim (qTrim s0 ++ (s1 :: s2 :: rest).foldl (fun v s => v ++ ':' :: s) []) := by
  unfold colonNameValue
  rw [hs]
  simp only [ht, if_pos]
  refine ⟨trivial, ?_⟩
  unfold reassembleFrom
  simp only [List.drop_succ_cons, List.drop_zero]
  rw [foldlColon_append]

/-- Witness for colonNameValue_recognized_keeps_name at the concrete
comments line of docC5. -/
theorem colonNameValue_recognized_keeps_name_witness :
    (colonNameValue c5Line).nameIsType = true ∧
    (colonNameValue c5Line).value =
      qTrim (qTrim c5S0 ++ ([c5S1, c5S2] : List (List Char)).foldl
        (fun v s => v ++ ':' :: s) []) :=
  colonNameValue_recognized_keeps_name c5Line c5S0 c5S1 c5S2 []
    (by decide) (by decide)

/-- Claim C6 counterexample: in the registry parser's scope branch, the
correctly spelled value "macrolanguage" and the value "deprecated" set no
flag at all (the parser state is returned unchanged), while only the
misspelled "macrolanguge" sets the macrolanguage flag — refuting the
claimed deprecated/collection/macrolanguage mapping. -/
theorem scope_correctSpelling_cex :
    applyNamedField sScope sMacrolanguage accScope = some accScope ∧
    applyNamedField sScope sDeprecatedName accScope = some accScope ∧
    accScope.lang = some ({} : Lang) ∧
    ({} : Lang).macrolanguage = false ∧ ({} : Lang).deprecated = false ∧
    applyNamedField sScope sMacrolanguge accScope =
      some { accScope with lang := some { ({} : Lang) with macrolanguage := true } } := by
  decide

/-- Claim C6 (amended): the scope field sets the macrolanguage flag exactly
for the literal value "macrolanguge" (sic) and the collection flag exactly
for "collection"; every other value — including "deprecated" and the
correctly spelled "macrolanguage" — leaves the record unchanged, and the
deprecated flag is never set from scope. -/
theorem applyScope_spec (v : List Char) (l : Lang) :
    applyScope v (some l) =
      some (if v = sMacrolanguge then { l with macrolanguage := true }
            else if v = sCollection then { l with collection := true }
            else l) := by
  by_cases h1 : v = sMacrolanguge
  · simp [applyScope, h1]
  · by_cases h2 : v = sCollection
    · have hne : ¬(sCollection = sMacrolanguge) := by decide
      subst h2
      simp [applyScope, hne]
    · simp [applyScope, h1, h2]

/-- Claim C7 counterexample: after a successful refresh with a strictly
newer (empty) dataset, languageFromSubtag still returns the old "fr"
record (iainFileParsed rebuilds no map), and even after running updateMaps
the description lookup still returns the old "French" record although the
dataset no longer contains it — refuting "no lookup returns a record that
belonged only to the previous dataset". -/
theorem staleLookup_cex :
    languageFromSubtag (iainFileParsed mapsOld [] d2021 true).1 sFr = some frRec ∧
    languageFromDescription (updateMaps (iainFileParsed mapsOld [] d2021 true).1)
      sFrench = some frRec ∧
    (updateMaps (iainFileParsed mapsOld [] d2021 true).1).datasetByDescription = [] := by
  decide

/-- Claim C7 (amended): on a successful error-free parse of a strictly
newer dataset, iainFileParsed replaces ONLY the dataset-by-description
multimap and the file date (and saves/notifies); none of the fourteen
per-kind description and subtag/tag maps is rebuilt or modified on this
path. -/
theorem iainFileParsed_replaces_only_dataset (st : Maps)
    (langs : List (List Char × Lang)) (d : Option IsoDate)
    (h : qdateLT st.fileDate d = true) :
    iainFileParsed st langs d true =
      ({ st with fileDate := d, datasetByDescription := langs },
       [.saved, .message]) := by
  simp [iainFileParsed, h]

/-- Witness for iainFileParsed_replaces_only_dataset at the concrete 2020
index refreshed with a 2021 dataset. -/
theorem iainFileParsed_replaces_only_dataset_witness :
    iainFileParsed mapsOld [] d2021 true =
      ({ mapsOld with fileDate := d2021, datasetByDescription := [] },
       [.saved, .message]) :=
  iainFileParsed_replaces_only_dataset mapsOld [] d2021 (by decide)

/-- Claim C8: the private-use primary-language test is a bare lexicographic
range check: the two-letter "qb" and the four-letter "qaaa" both fall in
["qaa","qtz"] and are classified PRIVATE_LANGUAGE, refuting the
three-letter restriction (they are not registered languages either). -/
theorem checkPrimaryLanguage_range_eval :
    checkPrimaryLanguage ({} : Maps) sQb = .PRIVATE_LANGUAGE ∧
    checkPrimaryLanguage ({} : Maps) sQaaaLc = .PRIVATE_LANGUAGE ∧
    isPrimaryLanguage ({} : Maps) sQb = false := by
  decide

/-- Claim C9: when the newly parsed file date is not strictly newer than
the currently held one (equal or earlier, including both invalid), the
held state is returned completely unchanged and no signal — neither the
save/sendMessage pair nor error — is emitted. -/
theorem iainFileParsed_stale_ignored (st : Maps)
    (langs : List (List Char × Lang)) (d : Option IsoDate) (ne : Bool)
    (h : qdateLE d st.fileDate = true) :
    iainFileParsed st langs d ne = (st, []) := by
  have hlt : qdateLT st.fileDate d = false := by
    cases hb : qdateLT st.fileDate d with
    | false => rfl
    | true => rw [qdateLE, hb] at h; simp at h
  simp [iainFileParsed, hlt]

/-- Witness for iainFileParsed_stale_ignored: refreshing the 2020 index
with an equal-dated dataset leaves it untouched and emits nothing. -/
theorem iainFileParsed_stale_ignored_witness :
    iainFileParsed mapsOld [(sFrench, frRec)] d2020 false = (mapsOld, []) :=
  iainFileParsed_stale_ignored mapsOld [(sFrench, frRec)] d2020 false (by decide)

/-- Claim C10: checkRedundant returns REDUNDANT_LANGUAGE exactly when the
value is a key of the VARIANT subtag index (it calls isVariant, not
isRedundant) and NO_REDUNDANT_LANGUAGE otherwise; hence a registered
redundant tag that is not also a variant subtag is classified
NO_REDUNDANT_LANGUAGE. -/
theorem checkRedundant_uses_variant_index (st : Maps) (v : List Char) :
    (checkRedundant st v = .REDUNDANT_LANGUAGE ↔ isVariant st v = true) ∧
    (isRedundant st v = true → isVariant st v = false →
      checkRedundant st v = .NO_REDUNDANT_LANGUAGE) := by
  unfold checkRedundant
  cases hv : isVariant st v <;> simp [hv]

/-- Witness for checkRedundant_uses_variant_index: the registered redundant
tag "en-GB-oed" is not a variant subtag and is classified
NO_REDUNDANT_LANGUAGE. -/
theorem checkRedundant_uses_variant_index_witness :
    checkRedundant mapsRedundant sOedTag = .NO_REDUNDANT_LANGUAGE ∧
    isRedundant mapsRedundant sOedTag = true :=
  ⟨(checkRedundant_uses_variant_index mapsRedundant sOedTag).2 (by decide) (by decide),
   by decide⟩

end LangSpec
